import Mathlib

/-!
Verification of the rule-based NLU engine `parse_transcript` (src/nlu.py).

The Python function is embedded shallowly: transcripts are `String`s
(processed as `List Char`), every regular expression of the source is
compiled by hand into an executable leftmost-first matcher with the same
backtracking behaviour, and the external date-parsing collaborator
(`dateparser.parse(...).isoformat()`, a third-party library) is passed in
as an explicit oracle `dp : String → Option String`.
-/

namespace NLU

/-- Result record of `parse_transcript`: an intent tag and an
insertion-ordered entity map (Python dict with unique keys). -/
structure ParseResult where
  intent : String
  entities : List (String × String)
  deriving DecidableEq, Repr

abbrev Entities := List (String × String)

def mkS (l : List Char) : String := ⟨l⟩

/-- Python `\s` for ASCII: space, tab, newline, carriage return,
vertical tab, form feed. -/
def isPyWS (c : Char) : Bool :=
  c = ' ' || c = '\t' || c = '\n' || c = '\x0d' || c = '\x0b' || c = '\x0c'

/-- Python `str.strip()` (ASCII whitespace). -/
def pyStrip (s : List Char) : List Char :=
  ((s.dropWhile isPyWS).reverse.dropWhile isPyWS).reverse

/-- Python `needle in hay` substring containment. -/
def containsSub (needle : List Char) : List Char → Bool
  | [] => needle.isEmpty
  | c :: cs => needle.isPrefixOf (c :: cs) || containsSub needle cs

/-- Python `str.capitalize()`: first char upper-cased, rest lower-cased. -/
def pyCapitalize : List Char → List Char
  | [] => []
  | c :: cs => c.toUpper :: cs.map Char.toLower

/-- Character class `[0-9a-fA-F-]` of the lead-id patterns. -/
def isHexDash (c : Char) : Bool :=
  c.isDigit || ('a' ≤ c && c ≤ 'f') || ('A' ≤ c && c ≤ 'F') || c = '-'

/-- Character class `[a-zA-Z0-9-]` of the short lead-id pattern. -/
def isAlnumDash (c : Char) : Bool := c.isAlphanum || c = '-'

/-- Character class `[-\s]` of the phone separators. -/
def isSepC (c : Char) : Bool := c = '-' || isPyWS c

/-- `re.search` driver: try the matcher at every start position,
leftmost first (exactly Python's search order). -/
def scanFirst (m : List Char → Option α) : List Char → Option α
  | [] => m []
  | c :: cs =>
    match m (c :: cs) with
    | some r => some r
    | none => scanFirst m cs

/-- Case-sensitive literal: returns (consumed, rest). -/
def mLit (pat : List Char) (s : List Char) : Option (List Char × List Char) :=
  if pat.isPrefixOf s then some (pat, s.drop pat.length) else none

/-- Case-insensitive literal (re.IGNORECASE): returns the consumed input
characters in their original case, plus the rest. -/
def mLitCI : List Char → List Char → Option (List Char × List Char)
  | [], s => some ([], s)
  | _ :: _, [] => none
  | p :: ps, c :: cs =>
    if c.toLower = p.toLower then
      match mLitCI ps cs with
      | some (t, r) => some (c :: t, r)
      | none => none
    else none

/-- Greedy `C+` for a character class `C` (used only where the following
pattern element is disjoint from `C`, so maximal munch is exact). -/
def mMunch1 (f : Char → Bool) (s : List Char) : Option (List Char × List Char) :=
  if (s.takeWhile f).isEmpty then none else some (s.takeWhile f, s.dropWhile f)

/-- Exactly `n` characters of a class (`C{n}`). -/
def mCount (f : Char → Bool) : Nat → List Char → Option (List Char × List Char)
  | 0, s => some ([], s)
  | _ + 1, [] => none
  | n + 1, c :: cs =>
    if f c then
      match mCount f n cs with
      | some (t, r) => some (c :: t, r)
      | none => none
    else none

/-- Sequencing of two matchers (no backtracking across the seam; used
only where the seam is deterministic). -/
def mSeq (m1 m2 : List Char → Option (List Char × List Char)) (s : List Char) :
    Option (List Char × List Char) :=
  match m1 s with
  | some (a, r) =>
    match m2 r with
    | some (b, r2) => some (a ++ b, r2)
    | none => none
  | none => none

/-- Ordered alternation: each branch carries its own continuation, which
reproduces the regex engine's backtracking. -/
def mOr (m1 m2 : List Char → Option (List Char × List Char)) (s : List Char) :
    Option (List Char × List Char) :=
  match m1 s with
  | some r => some r
  | none => m2 s

/-- Empty matcher (ε). -/
def mEps (s : List Char) : Option (List Char × List Char) := some ([], s)

/-- `.+` (greedy, `.` excludes newline, no anchor): the maximal non-newline
run from here, failing if it is empty. -/
def mDotPlus (s : List Char) : Option (List Char) :=
  let g := s.takeWhile (fun c => c ≠ '\n')
  if g.isEmpty then none else some g

/-- `(.+)$` (greedy, `$` = end of string or just before a final newline):
the unique viable group is the run up to the first newline, and the match
succeeds only if what follows that run is nothing or a lone final newline. -/
def mDotPlusEOL (s : List Char) : Option (List Char) :=
  let g := s.takeWhile (fun c => c ≠ '\n')
  let r := s.dropWhile (fun c => c ≠ '\n')
  if g.isEmpty then none
  else if r = [] || r = ['\n'] then some g else none

/-- `\s*` followed by `tail`, with the regex engine's greedy backtracking
(longest whitespace run first, then shorter); needed because `.` also
matches space characters. -/
def wsStarBT (tail : List Char → Option (List Char)) : List Char → Option (List Char)
  | [] => tail []
  | c :: cs =>
    if isPyWS c then
      match wsStarBT tail cs with
      | some r => some r
      | none => tail (c :: cs)
    else tail (c :: cs)

/-- `\s+` followed by `tail`, greedy with backtracking. -/
def wsPlusBT (tail : List Char → Option (List Char)) (s : List Char) : Option (List Char) :=
  match s with
  | [] => none
  | c :: cs => if isPyWS c then wsStarBT tail cs else none

/-! ### LEAD_CREATE entity patterns (src/nlu.py lines 59-79) -/

/-- Group of the name pattern: `[A-Z][a-z]+\s+[A-Z][a-z]+` (all class
seams are disjoint, so maximal munch is the regex behaviour). -/
def capPair : List Char → Option (List Char × List Char) :=
  mSeq (mCount Char.isUpper 1)
    (mSeq (mMunch1 Char.isLower)
      (mSeq (mMunch1 isPyWS)
        (mSeq (mCount Char.isUpper 1) (mMunch1 Char.isLower))))

/-- `(?:name\s+)?([A-Z][a-z]+\s+[A-Z][a-z]+)` at one position: the greedy
optional prefix is tried first, then the bare group. Returns group 1. -/
def matchNameAt (s : List Char) : Option (List Char) :=
  match
    (match mSeq (mLit "name".data) (mMunch1 isPyWS) s with
     | some (_, r) => (capPair r).map Prod.fst
     | none => none)
  with
  | some g => some g
  | none => (capPair s).map Prod.fst

/-- `\d{5}` -/
def d5 : List Char → Option (List Char × List Char) := mCount Char.isDigit 5

/-- `[-\s]?\d{5}` — optional separator tried greedily with backtracking. -/
def sepThenD5 : List Char → Option (List Char × List Char) :=
  mOr (mSeq (mCount isSepC 1) d5) d5

/-- `\d{5}[-\s]?\d{5}` -/
def phoneTail : List Char → Option (List Char × List Char) := mSeq d5 sepThenD5

/-- `\+91[-\s]?` followed by the ten digits (prefix branch of the phone
pattern), with the optional separator backtracked. -/
def phoneWithCC : List Char → Option (List Char × List Char) :=
  mSeq (mLit "+91".data) (mOr (mSeq (mCount isSepC 1) phoneTail) phoneTail)

/-- `(\+91[-\s]?)?\d{5}[-\s]?\d{5}` at one position; the whole match
(group 0) is returned, as the source uses `group(0)`. -/
def matchPhoneAt (s : List Char) : Option (List Char) :=
  (mOr phoneWithCC phoneTail s).map Prod.fst

/-- `[A-Za-z]+` -/
def alphaWord : List Char → Option (List Char × List Char) := mMunch1 Char.isAlpha

/-- `(?:city\s+|from\s+)([A-Za-z]+)` at one position (case-sensitive). -/
def matchCityAt (s : List Char) : Option (List Char) :=
  match
    (match mSeq (mLit "city".data) (mMunch1 isPyWS) s with
     | some (_, r) => (alphaWord r).map Prod.fst
     | none => none)
  with
  | some g => some g
  | none =>
    match mSeq (mLit "from".data) (mMunch1 isPyWS) s with
    | some (_, r) => (alphaWord r).map Prod.fst
    | none => none

/-- One keyword branch of the source pattern (case-insensitive). -/
def srcKey (w : String) (s : List Char) : Option (List Char) :=
  match mSeq (mLitCI w.data) (mMunch1 isPyWS) s with
  | some (_, r) => (alphaWord r).map Prod.fst
  | none => none

/-- `(?:via|source|referral|through)\s+([A-Za-z]+)` at one position,
alternatives in the source's order, each with its full continuation. -/
def matchSourceAt (s : List Char) : Option (List Char) :=
  match srcKey "via" s with
  | some g => some g
  | none =>
    match srcKey "source" s with
    | some g => some g
    | none =>
      match srcKey "referral" s with
      | some g => some g
      | none => srcKey "through" s

def findName (text : List Char) : Option (List Char) := scanFirst matchNameAt text
def findPhone (text : List Char) : Option (List Char) := scanFirst matchPhoneAt text
def findCity (text : List Char) : Option (List Char) := scanFirst matchCityAt text
def findSource (text : List Char) : Option (List Char) := scanFirst matchSourceAt text

/-! ### VISIT_SCHEDULE lead-id patterns (src/nlu.py lines 91-103) -/

/-- `lead\s+([0-9a-fA-F-]{8,})` at one position (IGNORECASE). -/
def matchVisitLead1At (s : List Char) : Option (List Char) :=
  match mSeq (mLitCI "lead".data) (mMunch1 isPyWS) s with
  | some (_, r) =>
    match mMunch1 isHexDash r with
    | some (t, _) => if 8 ≤ t.length then some t else none
    | none => none
  | none => none

/-- `lead\s+([a-zA-Z0-9-]{3,})` at one position (IGNORECASE). -/
def matchVisitLead2At (s : List Char) : Option (List Char) :=
  match mSeq (mLitCI "lead".data) (mMunch1 isPyWS) s with
  | some (_, r) =>
    match mMunch1 isAlnumDash r with
    | some (t, _) => if 3 ≤ t.length then some t else none
    | none => none
  | none => none

/-- Stopword guard of the visit lead-id loop. -/
def VISIT_STOPWORDS : List String := ["at", "on", "for", "with", "and", "or"]

/-- Second iteration of the lead-id pattern loop. -/
def visitLeadSnd (text : List Char) : Option (List Char) :=
  match scanFirst matchVisitLead2At text with
  | some m =>
    let lid := pyStrip m
    if VISIT_STOPWORDS.contains (mkS (lid.map Char.toLower)) then none else some lid
  | none => none

/-- The lead-id pattern loop: long UUID-style pattern first, then the
short pattern; a stopword capture falls through to the next pattern. -/
def visitLeadId (text : List Char) : Option (List Char) :=
  match scanFirst matchVisitLead1At text with
  | some m =>
    let lid := pyStrip m
    if VISIT_STOPWORDS.contains (mkS (lid.map Char.toLower)) then visitLeadSnd text
    else some lid
  | none => visitLeadSnd text

/-! ### VISIT_SCHEDULE time patterns (src/nlu.py lines 106-129) -/

/-- `(?:at|on)\s+` (IGNORECASE), each alternative with its continuation. -/
def mAtOnWS : List Char → Option (List Char × List Char) :=
  mOr (mSeq (mLitCI "at".data) (mMunch1 isPyWS))
    (mSeq (mLitCI "on".data) (mMunch1 isPyWS))

/-- `\d{4}-\d{2}-\d{2}T\d{2}:\d{2}:\d{2}` (the `T` is case-insensitive
under IGNORECASE). -/
def isoDT : List Char → Option (List Char × List Char) :=
  mSeq (mCount Char.isDigit 4)
    (mSeq (mLit "-".data)
      (mSeq (mCount Char.isDigit 2)
        (mSeq (mLit "-".data)
          (mSeq (mCount Char.isDigit 2)
            (mSeq (mLitCI "T".data)
              (mSeq (mCount Char.isDigit 2)
                (mSeq (mLit ":".data)
                  (mSeq (mCount Char.isDigit 2)
                    (mSeq (mLit ":".data) (mCount Char.isDigit 2))))))))))

/-- Time pattern 1: `(?:at|on)\s+(\d{4}-\d{2}-\d{2}T\d{2}:\d{2}:\d{2})`. -/
def matchTime1At (s : List Char) : Option (List Char) :=
  match mAtOnWS s with
  | some (_, r) => (isoDT r).map Prod.fst
  | none => none

/-- `\d{1,2}:` with the quantifier's greedy backtracking. -/
def d12colon : List Char → Option (List Char × List Char) :=
  mOr (mSeq (mCount Char.isDigit 2) (mLit ":".data))
    (mSeq (mCount Char.isDigit 1) (mLit ":".data))

/-- Time pattern 2: `(?:at|on)\s+(\d{4}-\d{2}-\d{2}\s+\d{1,2}:\d{2})`. -/
def matchTime2At (s : List Char) : Option (List Char) :=
  match mAtOnWS s with
  | some (_, r) =>
    (mSeq (mCount Char.isDigit 4)
      (mSeq (mLit "-".data)
        (mSeq (mCount Char.isDigit 2)
          (mSeq (mLit "-".data)
            (mSeq (mCount Char.isDigit 2)
              (mSeq (mMunch1 isPyWS)
                (mSeq d12colon (mCount Char.isDigit 2))))))) r).map Prod.fst
  | none => none

/-- `(?:AM|PM)` (IGNORECASE). -/
def mAMPM : List Char → Option (List Char × List Char) :=
  mOr (mLitCI "AM".data) (mLitCI "PM".data)

/-- `\s*(?:AM|PM)?` — the maximal whitespace run, then the optional
meridiem; backtracking the star cannot help since a shorter run leaves a
whitespace character where `A`/`P` is required, so this is exact. -/
def mTimeTail (s : List Char) : Option (List Char × List Char) :=
  let w := s.takeWhile isPyWS
  let r := s.dropWhile isPyWS
  match mAMPM r with
  | some (a, r2) => some (w ++ a, r2)
  | none => some (w, r)

/-- `\d{1,2}` (greedy; always followed here by all-optional elements, so
two digits are preferred and no backtracking is needed). -/
def mD12 : List Char → Option (List Char × List Char) :=
  mOr (mCount Char.isDigit 2) (mCount Char.isDigit 1)

/-- Month-name alternation of time pattern 3 (IGNORECASE). No month name
is a prefix of another, so plain sequencing is exact. -/
def mMonth : List Char → Option (List Char × List Char) :=
  mOr (mLitCI "January".data)
    (mOr (mLitCI "February".data)
      (mOr (mLitCI "March".data)
        (mOr (mLitCI "April".data)
          (mOr (mLitCI "May".data)
            (mOr (mLitCI "June".data)
              (mOr (mLitCI "July".data)
                (mOr (mLitCI "August".data)
                  (mOr (mLitCI "September".data)
                    (mOr (mLitCI "October".data)
                      (mOr (mLitCI "November".data) (mLitCI "December".data)))))))))))

/-- Group of time pattern 3: month `\s+\d{1,2}\s+\d{1,2}\s*(?:AM|PM)?`,
with the first day-number quantifier backtracked against the required
whitespace. -/
def monthDayTime : List Char → Option (List Char × List Char) :=
  mSeq mMonth
    (mSeq (mMunch1 isPyWS)
      (mOr
        (mSeq (mCount Char.isDigit 2) (mSeq (mMunch1 isPyWS) (mSeq mD12 mTimeTail)))
        (mSeq (mCount Char.isDigit 1) (mSeq (mMunch1 isPyWS) (mSeq mD12 mTimeTail)))))

/-- Time pattern 3: `(?:at|on)\s+(Month \d{1,2} \d{1,2}\s*(?:AM|PM)?)`. -/
def matchTime3At (s : List Char) : Option (List Char) :=
  match mAtOnWS s with
  | some (_, r) => (monthDayTime r).map Prod.fst
  | none => none

/-- `\d{1,2}(?::\d{2})?\s*(?:AM|PM)?` — the bare-time group shared by
patterns 4 and 5. -/
def mHM : List Char → Option (List Char × List Char) :=
  mOr
    (mSeq (mCount Char.isDigit 2)
      (mSeq (mOr (mSeq (mLit ":".data) (mCount Char.isDigit 2)) mEps) mTimeTail))
    (mSeq (mCount Char.isDigit 1)
      (mSeq (mOr (mSeq (mLit ":".data) (mCount Char.isDigit 2)) mEps) mTimeTail))

/-- Weekday/relative-day alternation of time pattern 4 (IGNORECASE). No
word is a prefix of another, so plain sequencing is exact. -/
def mDayWord : List Char → Option (List Char × List Char) :=
  mOr (mLitCI "tomorrow".data)
    (mOr (mLitCI "today".data)
      (mOr (mLitCI "monday".data)
        (mOr (mLitCI "tuesday".data)
          (mOr (mLitCI "wednesday".data)
            (mOr (mLitCI "thursday".data)
              (mOr (mLitCI "friday".data)
                (mOr (mLitCI "saturday".data) (mLitCI "sunday".data))))))))

/-- Time pattern 4: `(day)\s+(?:at\s+)?(time)` — two capture groups; the
optional `at\s+` is tried greedily, falling back to the bare time. -/
def matchTime4At (s : List Char) : Option (List Char × List Char) :=
  match mDayWord s with
  | some (g1, r) =>
    match mMunch1 isPyWS r with
    | some (_, r2) =>
      match
        (match mSeq (mLitCI "at".data) (mMunch1 isPyWS) r2 with
         | some (_, r3) => (mHM r3).map (fun (p : List Char × List Char) => (g1, p.1))
         | none => none)
      with
      | some gg => some gg
      | none => (mHM r2).map (fun (p : List Char × List Char) => (g1, p.1))
    | none => none
  | none => none

/-- Time pattern 5: `(?:at|on)\s+(\d{1,2}(?::\d{2})?\s*(?:AM|PM)?)`. -/
def matchTime5At (s : List Char) : Option (List Char) :=
  match mAtOnWS s with
  | some (_, r) => (mHM r).map Prod.fst
  | none => none

/-- Time pattern 6: `(\d{1,2}:\d{2}(?:\s*(?:AM|PM))?)` — here the
whitespace run sits inside the optional meridiem group, so it is dropped
when no meridiem follows. -/
def matchTime6At (s : List Char) : Option (List Char) :=
  (mSeq d12colon
    (mSeq (mCount Char.isDigit 2)
      (mOr (mSeq (fun s => some (s.takeWhile isPyWS, s.dropWhile isPyWS)) mAMPM) mEps)) s).map
    Prod.fst

/-- The ordered time-pattern loop producing `time_text`: single-group
matches are stripped, the two groups of pattern 4 are joined with a
space (exactly the source's f-string). -/
def findTimeText (text : List Char) : Option (List Char) :=
  match scanFirst matchTime1At text with
  | some g => some (pyStrip g)
  | none =>
  match scanFirst matchTime2At text with
  | some g => some (pyStrip g)
  | none =>
  match scanFirst matchTime3At text with
  | some g => some (pyStrip g)
  | none =>
  match scanFirst matchTime4At text with
  | some (g1, g2) => some (g1 ++ ' ' :: g2)
  | none =>
  match scanFirst matchTime5At text with
  | some g => some (pyStrip g)
  | none =>
  match scanFirst matchTime6At text with
  | some g => some (pyStrip g)
  | none => none

/-! ### Notes patterns (src/nlu.py lines 137-146 and 172-174) -/

/-- Visit notes pattern 1: `notes?\s+(.+)$` (IGNORECASE); the optional
`s` is greedy, and the whitespace run backtracks against `.+`. -/
def matchVNotes1At (s : List Char) : Option (List Char) :=
  match
    (match mLitCI "notes".data s with
     | some (_, r) => wsPlusBT mDotPlusEOL r
     | none => none)
  with
  | some g => some g
  | none =>
    match mLitCI "note".data s with
    | some (_, r) => wsPlusBT mDotPlusEOL r
    | none => none

/-- Visit notes pattern 2: `notes?:\s*(.+)$` (IGNORECASE). -/
def matchVNotes2At (s : List Char) : Option (List Char) :=
  match
    (match mSeq (mLitCI "notes".data) (mLit ":".data) s with
     | some (_, r) => wsStarBT mDotPlusEOL r
     | none => none)
  with
  | some g => some g
  | none =>
    match mSeq (mLitCI "note".data) (mLit ":".data) s with
    | some (_, r) => wsStarBT mDotPlusEOL r
    | none => none

/-- The visit notes-pattern loop (first matching pattern wins). -/
def visitNotesValue (text : List Char) : Option (List Char) :=
  match scanFirst matchVNotes1At text with
  | some g => some g
  | none => scanFirst matchVNotes2At text

/-- Update notes pattern: `notes?:\s*(.+)` (IGNORECASE, no anchor). -/
def matchUNotesAt (s : List Char) : Option (List Char) :=
  match
    (match mSeq (mLitCI "notes".data) (mLit ":".data) s with
     | some (_, r) => wsStarBT mDotPlus r
     | none => none)
  with
  | some g => some g
  | none =>
    match mSeq (mLitCI "note".data) (mLit ":".data) s with
    | some (_, r) => wsStarBT mDotPlus r
    | none => none

/-! ### LEAD_UPDATE patterns (src/nlu.py lines 159-170) -/

/-- `lead\s+([0-9a-fA-F-]+)` at one position — note: CASE-SENSITIVE
(the source passes no IGNORECASE flag on line 159). -/
def matchULeadAt (s : List Char) : Option (List Char) :=
  match mSeq (mLit "lead".data) (mMunch1 isPyWS) s with
  | some (_, r) => (mMunch1 isHexDash r).map Prod.fst
  | none => none

/-- `(NEW|IN PROGRESS|FOLLOW UP|WON|LOST)` at one position (IGNORECASE),
alternatives in the source's order. -/
def matchStatusAt (s : List Char) : Option (List Char) :=
  match mLitCI "NEW".data s with
  | some (t, _) => some t
  | none =>
  match mLitCI "IN PROGRESS".data s with
  | some (t, _) => some t
  | none =>
  match mLitCI "FOLLOW UP".data s with
  | some (t, _) => some t
  | none =>
  match mLitCI "WON".data s with
  | some (t, _) => some t
  | none =>
  match mLitCI "LOST".data s with
  | some (t, _) => some t
  | none => none

/-- `status_match.group(1).upper().replace(" ", "_")`. -/
def statusNorm (m : List Char) : String :=
  mkS ((m.map Char.toUpper).map (fun c => if c = ' ' then '_' else c))

/-! ### The whitelists and the intent gates (src/nlu.py lines 22-25, 58, 87, 158) -/

def KNOWN_SOURCES : List String :=
  ["instagram", "facebook", "linkedin", "website", "google", "ads"]

def VALID_STATUSES : List String :=
  ["NEW", "IN_PROGRESS", "FOLLOW_UP", "WON", "LOST"]

/-- Gate: `"lead" in lowered and any(w in lowered for w in ["add", "create", "register", "new"])`. -/
def leadCreateGate (lowered : List Char) : Bool :=
  containsSub "lead".data lowered &&
    (containsSub "add".data lowered || containsSub "create".data lowered ||
      containsSub "register".data lowered || containsSub "new".data lowered)

/-- Gate: `any(keyword in lowered for keyword in ["visit", "appointment", "meeting", "schedule"])`. -/
def visitGate (lowered : List Char) : Bool :=
  containsSub "visit".data lowered || containsSub "appointment".data lowered ||
    containsSub "meeting".data lowered || containsSub "schedule".data lowered

/-- Gate: `"update" in lowered or "mark" in lowered or "status" in lowered`. -/
def updateGate (lowered : List Char) : Bool :=
  containsSub "update".data lowered || containsSub "mark".data lowered ||
    containsSub "status".data lowered

/-! ### Entity maps and the three extraction attempts -/

/-- Key lookup in the entity map (`entities[k]` / `k in entities`). -/
def lookupE (e : Entities) (k : String) : Option String :=
  (e.find? (fun p => p.1 == k)).map Prod.snd

/-- `k in entities.keys()`. -/
def hasKey (e : Entities) (k : String) : Bool := e.any (fun p => p.1 == k)

/-- A conditional single-entry map fragment. -/
def optEntry (k : String) (v : Option String) : Entities :=
  match v with
  | some s => [(k, s)]
  | none => []

/-- The validated optional source value (src/nlu.py lines 75-79):
capitalize the captured word, keep it only if its lowercase form is in
`KNOWN_SOURCES`. -/
def sourceValue (text : List Char) : Option String :=
  match findSource text with
  | some m =>
    if KNOWN_SOURCES.contains (mkS ((pyCapitalize m).map Char.toLower)) then
      some (mkS (pyCapitalize m))
    else none
  | none => none

/-- The LEAD_CREATE entity map in insertion order. -/
def leadCreateEntities (text : List Char) : Entities :=
  optEntry "name" ((findName text).map (fun m => mkS (pyStrip m))) ++
  optEntry "phone" ((findPhone text).map (fun m => mkS (m.filter Char.isDigit))) ++
  optEntry "city" ((findCity text).map (fun m => mkS (pyStrip m))) ++
  optEntry "source" (sourceValue text)

/-- The LEAD_CREATE trial (src/nlu.py lines 58-82): gate, extraction,
and the required-field check before claiming the intent. -/
def leadCreateAttempt (text lowered : List Char) : Option ParseResult :=
  if leadCreateGate lowered then
    let e := leadCreateEntities text
    if hasKey e "name" && hasKey e "phone" && hasKey e "city" then
      some ⟨"LEAD_CREATE", e⟩
    else none
  else none

/-- The time-normalization step (src/nlu.py lines 131-134): when a
truthy `time_text` was produced, hand it to the date-parsing
collaborator `dp` and store the canonical output under `visit_time` if
parsing succeeded. -/
def visitTimeEntry (dp : String → Option String) (tt : Option (List Char)) : Entities :=
  match tt with
  | some p =>
    if p.isEmpty then []
    else
      match dp (mkS p) with
      | some iso => [("visit_time", iso)]
      | none => []
  | none => []

/-- The VISIT_SCHEDULE trial (src/nlu.py lines 87-153). `dp` is the
external date-parsing collaborator (`dateparser.parse(...).isoformat()`). -/
def visitAttempt (dp : String → Option String) (text lowered : List Char) :
    Option ParseResult :=
  if visitGate lowered then
    let eL := optEntry "lead_id" ((visitLeadId text).map mkS)
    let tt := findTimeText text
    let eT : Entities := visitTimeEntry dp tt
    let eN := optEntry "notes" ((visitNotesValue text).map (fun m => mkS (pyStrip m)))
    let e := eL ++ eT ++ eN
    match tt with
    | some p =>
      if hasKey e "lead_id" && (hasKey e "visit_time" || !p.isEmpty) then
        some ⟨"VISIT_SCHEDULE",
          if !hasKey e "visit_time" && !p.isEmpty then e ++ [("visit_time", mkS p)] else e⟩
      else none
    | none =>
      if hasKey e "lead_id" && hasKey e "visit_time" then some ⟨"VISIT_SCHEDULE", e⟩
      else none
  else none

/-- The validated status value (src/nlu.py lines 167-170). -/
def statusValue (text : List Char) : Option String :=
  match scanFirst matchStatusAt text with
  | some m =>
    if VALID_STATUSES.contains (statusNorm m) then some (statusNorm m) else none
  | none => none

/-- The LEAD_UPDATE entity map in insertion order. -/
def updateEntities (text : List Char) : Entities :=
  optEntry "lead_id" ((scanFirst matchULeadAt text).map (fun m => mkS (pyStrip m))) ++
  optEntry "status" (statusValue text) ++
  optEntry "notes" ((scanFirst matchUNotesAt text).map (fun m => mkS (pyStrip m)))

/-- The LEAD_UPDATE trial (src/nlu.py lines 158-177). -/
def updateAttempt (text lowered : List Char) : Option ParseResult :=
  if updateGate lowered then
    let e := updateEntities text
    if hasKey e "lead_id" && hasKey e "status" then some ⟨"LEAD_UPDATE", e⟩
    else none
  else none

/-- `text = transcript.strip()`. -/
def textOf (t : String) : List Char := pyStrip t.data

/-- `lowered = text.lower()`. -/
def loweredOf (t : String) : List Char := (textOf t).map Char.toLower

/-- `parse_transcript` (src/nlu.py lines 28-182): the three intent trials
in priority order, falling back to UNKNOWN with empty entities. -/
def parse_transcript (dp : String → Option String) (t : String) : ParseResult :=
  match leadCreateAttempt (textOf t) (loweredOf t) with
  | some r => r
  | none =>
  match visitAttempt dp (textOf t) (loweredOf t) with
  | some r => r
  | none =>
  match updateAttempt (textOf t) (loweredOf t) with
  | some r => r
  | none => ⟨"UNKNOWN", []⟩

/-- A concrete date-parsing oracle that always fails (used to close
theorems over the collaborator parameter). -/
def dpNone : String → Option String := fun _ => none

/-! ### Entity-map lemmas -/

theorem hasKey_append (a b : Entities) (k : String) :
    hasKey (a ++ b) k = (hasKey a k || hasKey b k) := List.any_append

theorem lookupE_append (a b : Entities) (k : String) :
    lookupE (a ++ b) k = (lookupE a k).or (lookupE b k) := by
  simp only [lookupE, List.find?_append]
  cases List.find? (fun p => p.1 == k) a <;> simp

theorem hasKey_optEntry (k k' : String) (v : Option String) :
    hasKey (optEntry k v) k' = (v.isSome && (k == k')) := by
  cases v <;> simp [optEntry, hasKey]

theorem lookupE_optEntry (k k' : String) (v : Option String) :
    lookupE (optEntry k v) k' = cond (k == k') v none := by
  cases v <;> cases h : (k == k') <;> simp [optEntry, lookupE, List.find?, h]

/-! ### Evaluation lemmas for the time-normalization step -/

theorem visitTimeEntry_none (dp : String → Option String) :
    visitTimeEntry dp none = [] := rfl

theorem visitTimeEntry_empty (dp : String → Option String) {p : List Char}
    (hpe : p.isEmpty = true) : visitTimeEntry dp (some p) = [] := by
  show (if p.isEmpty = true then ([] : Entities)
    else
      match dp (mkS p) with
      | some iso => [("visit_time", iso)]
      | none => []) = []
  rw [if_pos hpe]

theorem visitTimeEntry_parsed (dp : String → Option String) {p : List Char} {iso : String}
    (hpe : p.isEmpty = false) (hdp : dp (mkS p) = some iso) :
    visitTimeEntry dp (some p) = [("visit_time", iso)] := by
  show (if p.isEmpty = true then ([] : Entities)
    else
      match dp (mkS p) with
      | some iso => [("visit_time", iso)]
      | none => []) = [("visit_time", iso)]
  rw [hpe, hdp]
  rfl

theorem visitTimeEntry_failed (dp : String → Option String) {p : List Char}
    (hpe : p.isEmpty = false) (hdp : dp (mkS p) = none) :
    visitTimeEntry dp (some p) = [] := by
  show (if p.isEmpty = true then ([] : Entities)
    else
      match dp (mkS p) with
      | some iso => [("visit_time", iso)]
      | none => []) = []
  rw [hpe, hdp]
  rfl

/-- The collaborator is consulted only on the computed time text: two
collaborators agreeing there produce the same visit_time entry. -/
theorem visitTimeEntry_congr (dp dp' : String → Option String) (tt : Option (List Char))
    (h : ∀ p, tt = some p → dp (mkS p) = dp' (mkS p)) :
    visitTimeEntry dp tt = visitTimeEntry dp' tt := by
  cases tt with
  | none => rfl
  | some p =>
    by_cases hpe : p.isEmpty = true
    · rw [visitTimeEntry_empty dp hpe, visitTimeEntry_empty dp' hpe]
    · have hpe' : p.isEmpty = false := eq_false_of_ne_true hpe
      have hd := h p rfl
      cases hdp : dp (mkS p) with
      | some iso =>
        rw [visitTimeEntry_parsed dp hpe' hdp,
          visitTimeEntry_parsed dp' hpe' (hd.symm.trans hdp)]
      | none =>
        rw [visitTimeEntry_failed dp hpe' hdp,
          visitTimeEntry_failed dp' hpe' (hd.symm.trans hdp)]

/-! ### Shape lemmas for the three attempts -/

theorem leadCreateAttempt_eq_some {text lowered : List Char} {r : ParseResult}
    (h : leadCreateAttempt text lowered = some r) :
    r = ⟨"LEAD_CREATE", leadCreateEntities text⟩ ∧ leadCreateGate lowered = true ∧
      hasKey (leadCreateEntities text) "name" = true ∧
      hasKey (leadCreateEntities text) "phone" = true ∧
      hasKey (leadCreateEntities text) "city" = true := by
  unfold leadCreateAttempt at h
  by_cases hg : leadCreateGate lowered = true
  · rw [if_pos hg] at h
    by_cases hk : (hasKey (leadCreateEntities text) "name" &&
        hasKey (leadCreateEntities text) "phone" &&
        hasKey (leadCreateEntities text) "city") = true
    · rw [if_pos hk] at h
      simp only [Bool.and_eq_true] at hk
      exact ⟨(Option.some_inj.mp h).symm, hg, hk.1.1, hk.1.2, hk.2⟩
    · rw [if_neg hk] at h; exact absurd h (by simp)
  · rw [if_neg hg] at h; exact absurd h (by simp)

theorem updateAttempt_eq_some {text lowered : List Char} {r : ParseResult}
    (h : updateAttempt text lowered = some r) :
    r = ⟨"LEAD_UPDATE", updateEntities text⟩ ∧ updateGate lowered = true ∧
      hasKey (updateEntities text) "lead_id" = true ∧
      hasKey (updateEntities text) "status" = true := by
  unfold updateAttempt at h
  by_cases hg : updateGate lowered = true
  · rw [if_pos hg] at h
    by_cases hk : (hasKey (updateEntities text) "lead_id" &&
        hasKey (updateEntities text) "status") = true
    · rw [if_pos hk] at h
      simp only [Bool.and_eq_true] at hk
      exact ⟨(Option.some_inj.mp h).symm, hg, hk.1, hk.2⟩
    · rw [if_neg hk] at h; exact absurd h (by simp)
  · rw [if_neg hg] at h; exact absurd h (by simp)

theorem visitAttempt_eq_some {dp : String → Option String} {text lowered : List Char}
    {r : ParseResult} (h : visitAttempt dp text lowered = some r) :
    r.intent = "VISIT_SCHEDULE" ∧ hasKey r.entities "lead_id" = true ∧
      hasKey r.entities "visit_time" = true := by
  unfold visitAttempt at h
  by_cases hg : visitGate lowered = true
  · rw [if_pos hg] at h
    simp only at h
    cases htt : findTimeText text with
    | some p =>
      rw [htt] at h
      simp only [] at h
      set e := optEntry "lead_id" ((visitLeadId text).map mkS) ++
        visitTimeEntry dp (some p) ++
        optEntry "notes" ((visitNotesValue text).map (fun m => mkS (pyStrip m))) with he
      by_cases hc : (hasKey e "lead_id" && (hasKey e "visit_time" || !p.isEmpty)) = true
      · rw [if_pos hc] at h
        simp only [Bool.and_eq_true, Bool.or_eq_true] at hc
        cases h
        by_cases hv : hasKey e "visit_time" = true
        · refine ⟨rfl, ?_, ?_⟩ <;> simp [hv, hc.1]
        · have hv' : hasKey e "visit_time" = false := by
            cases hvv : hasKey e "visit_time"
            · rfl
            · exact absurd hvv hv
          have hp : (!p.isEmpty) = true := by
            rcases hc.2 with h' | h'
            · exact absurd h' hv
            · exact h'
          have hcond : (!hasKey e "visit_time" && !p.isEmpty) = true := by
            rw [hv', hp]; rfl
          refine ⟨rfl, ?_, ?_⟩
          · show hasKey (if (!hasKey e "visit_time" && !p.isEmpty) = true then
              e ++ [("visit_time", mkS p)] else e) "lead_id" = true
            rw [if_pos hcond, hasKey_append, hc.1]; rfl
          · show hasKey (if (!hasKey e "visit_time" && !p.isEmpty) = true then
              e ++ [("visit_time", mkS p)] else e) "visit_time" = true
            rw [if_pos hcond, hasKey_append]
            have h1 : hasKey [("visit_time", mkS p)] "visit_time" = true := by
              simp [hasKey]
            rw [h1, Bool.or_true]
      · rw [if_neg hc] at h; exact absurd h (by simp)
    | none =>
      rw [htt] at h
      simp only [] at h
      set e := optEntry "lead_id" ((visitLeadId text).map mkS) ++ visitTimeEntry dp none ++
        optEntry "notes" ((visitNotesValue text).map (fun m => mkS (pyStrip m))) with he
      by_cases hc : (hasKey e "lead_id" && hasKey e "visit_time") = true
      · rw [if_pos hc] at h
        simp only [Bool.and_eq_true] at hc
        cases h
        exact ⟨rfl, hc.1, hc.2⟩
      · rw [if_neg hc] at h; exact absurd h (by simp)
  · rw [if_neg hg] at h; exact absurd h (by simp)

/-! ### Claim C1 -/

/-- The required-entity table of the spec (section 3, EntitySchema). This
definition follows the SPEC's words, to be compared with the maps the
code builds. -/
def requiredEntitiesSpec : String → List String
  | "LEAD_CREATE" => ["name", "phone", "city"]
  | "VISIT_SCHEDULE" => ["lead_id", "visit_time"]
  | "LEAD_UPDATE" => ["lead_id", "status"]
  | _ => []

/-- C1: for every transcript (and every behaviour of the date-parsing
collaborator), if `parse_transcript` returns a result whose intent is not
UNKNOWN, the entity map contains every required entity for that intent:
name, phone, city for LEAD_CREATE; lead_id, visit_time for
VISIT_SCHEDULE; lead_id, status for LEAD_UPDATE (for UNKNOWN the
required list is empty, so the statement covers all intents). -/
theorem C1_required_entities_present (dp : String → Option String) (t : String) :
    (requiredEntitiesSpec (parse_transcript dp t).intent).all
      (fun k => hasKey (parse_transcript dp t).entities k) = true := by
  unfold parse_transcript
  cases h1 : leadCreateAttempt (textOf t) (loweredOf t) with
  | some r =>
    obtain ⟨hr, _, hn, hp, hc⟩ := leadCreateAttempt_eq_some h1
    subst hr
    simp [requiredEntitiesSpec, hn, hp, hc]
  | none =>
    cases h2 : visitAttempt dp (textOf t) (loweredOf t) with
    | some r =>
      obtain ⟨hi, hl, hv⟩ := visitAttempt_eq_some h2
      simp only []
      rw [hi]
      simp [requiredEntitiesSpec, hl, hv]
    | none =>
      cases h3 : updateAttempt (textOf t) (loweredOf t) with
      | some r =>
        obtain ⟨hr, _, hl, hs⟩ := updateAttempt_eq_some h3
        subst hr
        simp [requiredEntitiesSpec, hl, hs]
      | none => simp [requiredEntitiesSpec]

/-! ### Claim C2 -/

/-- C2: `parse_transcript` tries LEAD_CREATE, then VISIT_SCHEDULE, then
LEAD_UPDATE, returning the first trial whose full required-field set is
satisfied. If the LEAD_CREATE trial succeeds its result wins; if it fails
(its gate did not match, or its extraction missed a required field),
control falls through, and a fully successful VISIT_SCHEDULE trial
determines the result, with intent VISIT_SCHEDULE. -/
theorem C2_priority_and_fallthrough (dp : String → Option String) (t : String)
    (r : ParseResult)
    (h2 : visitAttempt dp (textOf t) (loweredOf t) = some r) :
    (∀ r', leadCreateAttempt (textOf t) (loweredOf t) = some r' →
      parse_transcript dp t = r' ∧ r'.intent = "LEAD_CREATE") ∧
    (leadCreateAttempt (textOf t) (loweredOf t) = none →
      parse_transcript dp t = r ∧ r.intent = "VISIT_SCHEDULE") := by
  constructor
  · intro r' h1
    obtain ⟨hr, _⟩ := leadCreateAttempt_eq_some h1
    exact ⟨by simp [parse_transcript, h1], by rw [hr]⟩
  · intro h1
    exact ⟨by simp [parse_transcript, h1, h2], (visitAttempt_eq_some h2).1⟩

/-- Witness for C2: "new visit lead abc at 3" satisfies the LEAD_CREATE
gate (contains "lead" and "new") but its extraction finds no name, phone
or city, so control falls through, and the VISIT_SCHEDULE trial fully
succeeds. -/
theorem C2_priority_and_fallthrough_witness :
    leadCreateGate (loweredOf "new visit lead abc at 3") = true ∧
    leadCreateAttempt (textOf "new visit lead abc at 3")
      (loweredOf "new visit lead abc at 3") = none ∧
    parse_transcript dpNone "new visit lead abc at 3" =
      ⟨"VISIT_SCHEDULE", [("lead_id", "abc"), ("visit_time", "3")]⟩ := by
  have h2 : visitAttempt dpNone (textOf "new visit lead abc at 3")
      (loweredOf "new visit lead abc at 3") =
      some ⟨"VISIT_SCHEDULE", [("lead_id", "abc"), ("visit_time", "3")]⟩ := rfl
  have h1 : leadCreateAttempt (textOf "new visit lead abc at 3")
      (loweredOf "new visit lead abc at 3") = none := rfl
  exact ⟨rfl, h1,
    ((C2_priority_and_fallthrough dpNone "new visit lead abc at 3" _ h2).2 h1).1⟩

/-! ### Claim C3 -/

/-- C3: whenever no keyword gate triggers — or, more generally, whenever
none of the three trials succeeds (no extractor's required-field set is
satisfied) — `parse_transcript` returns intent UNKNOWN with an empty
entity map. -/
theorem C3_unknown_fallback (dp : String → Option String) (t : String)
    (h : (leadCreateGate (loweredOf t) = false ∧ visitGate (loweredOf t) = false ∧
          updateGate (loweredOf t) = false) ∨
         (leadCreateAttempt (textOf t) (loweredOf t) = none ∧
          visitAttempt dp (textOf t) (loweredOf t) = none ∧
          updateAttempt (textOf t) (loweredOf t) = none)) :
    parse_transcript dp t = ⟨"UNKNOWN", []⟩ := by
  have hn : leadCreateAttempt (textOf t) (loweredOf t) = none ∧
      visitAttempt dp (textOf t) (loweredOf t) = none ∧
      updateAttempt (textOf t) (loweredOf t) = none := by
    rcases h with ⟨h1, h2, h3⟩ | h'
    · refine ⟨?_, ?_, ?_⟩
      · unfold leadCreateAttempt; rw [h1]; rfl
      · unfold visitAttempt; rw [h2]; rfl
      · unfold updateAttempt; rw [h3]; rfl
    · exact h'
  simp [parse_transcript, hn.1, hn.2.1, hn.2.2]

/-- Witness for C3: "hello there" triggers none of the keyword gates, so
the result is UNKNOWN with an empty entity map. -/
theorem C3_unknown_fallback_witness :
    leadCreateGate (loweredOf "hello there") = false ∧
    visitGate (loweredOf "hello there") = false ∧
    updateGate (loweredOf "hello there") = false ∧
    parse_transcript dpNone "hello there" = ⟨"UNKNOWN", []⟩ :=
  ⟨rfl, rfl, rfl, C3_unknown_fallback dpNone "hello there" (Or.inl ⟨rfl, rfl, rfl⟩)⟩

/-! ### Claim C4 -/

/-- C4: in the VISIT_SCHEDULE extractor, when the ordered time patterns
produce a phrase `time_text`, the phrase is passed to the date-parsing
collaborator: if it returns a canonical timestamp, `visit_time` holds
that timestamp; if it reports failure, `visit_time` holds the matched
time text verbatim (not dropped), and the intent can still succeed with
that raw string — the claim holds for every successful visit trial. -/
theorem C4_raw_time_fallback (dp : String → Option String) (text lowered : List Char)
    (r : ParseResult) (p : List Char)
    (h1 : visitAttempt dp text lowered = some r)
    (h2 : findTimeText text = some p) :
    (∀ c, dp (mkS p) = some c → lookupE r.entities "visit_time" = some c) ∧
    (dp (mkS p) = none → lookupE r.entities "visit_time" = some (mkS p)) := by
  unfold visitAttempt at h1
  by_cases hg : visitGate lowered = true
  · rw [if_pos hg] at h1
    simp only at h1
    rw [h2] at h1
    simp only [] at h1
    by_cases hpe : p.isEmpty = true
    · rw [visitTimeEntry_empty dp hpe] at h1
      have hv : hasKey (optEntry "lead_id" ((visitLeadId text).map mkS) ++ [] ++
          optEntry "notes" ((visitNotesValue text).map (fun m => mkS (pyStrip m))))
          "visit_time" = false := by
        simp [hasKey_append, hasKey_optEntry]
      rw [hpe] at h1
      simp only [hv, Bool.not_true, Bool.or_false, Bool.and_false] at h1
      exact absurd h1 (by simp)
    · have hpe' : p.isEmpty = false := by
        revert hpe; cases p.isEmpty <;> simp
      cases hdp : dp (mkS p) with
      | some iso =>
        rw [visitTimeEntry_parsed dp hpe' hdp] at h1
        have hv : hasKey (optEntry "lead_id" ((visitLeadId text).map mkS) ++
            [("visit_time", iso)] ++
            optEntry "notes" ((visitNotesValue text).map (fun m => mkS (pyStrip m))))
            "visit_time" = true := by
          simp [hasKey_append, hasKey_optEntry, hasKey]
        rw [hv] at h1
        simp only [Bool.or_true, Bool.and_true, Bool.not_true, Bool.false_and] at h1
        by_cases hc : hasKey (optEntry "lead_id" ((visitLeadId text).map mkS) ++
            [("visit_time", iso)] ++
            optEntry "notes" ((visitNotesValue text).map (fun m => mkS (pyStrip m))))
            "lead_id" = true
        · rw [hc] at h1
          simp only [if_true, if_false, Bool.false_eq_true] at h1
          cases h1
          have hl : lookupE (optEntry "lead_id" ((visitLeadId text).map mkS) ++
              [("visit_time", iso)] ++
              optEntry "notes" ((visitNotesValue text).map (fun m => mkS (pyStrip m))))
              "visit_time" = some iso := by
            rw [lookupE_append, lookupE_append, lookupE_optEntry, lookupE_optEntry]
            simp only [show ("lead_id" == "visit_time") = false from rfl,
              show ("notes" == "visit_time") = false from rfl, cond_false]
            rfl
          constructor
          · intro c hcc
            cases hcc
            exact hl
          · intro hn
            exact absurd hn (by simp)
        · rw [eq_false_of_ne_true hc] at h1
          exact absurd h1 (by simp)
      | none =>
        rw [visitTimeEntry_failed dp hpe' hdp] at h1
        have hv : hasKey (optEntry "lead_id" ((visitLeadId text).map mkS) ++ [] ++
            optEntry "notes" ((visitNotesValue text).map (fun m => mkS (pyStrip m))))
            "visit_time" = false := by
          simp [hasKey_append, hasKey_optEntry]
        rw [hv, hpe'] at h1
        simp only [Bool.not_false, Bool.false_or, Bool.and_true, Bool.true_and] at h1
        by_cases hc : hasKey (optEntry "lead_id" ((visitLeadId text).map mkS) ++ [] ++
            optEntry "notes" ((visitNotesValue text).map (fun m => mkS (pyStrip m))))
            "lead_id" = true
        · rw [hc] at h1
          simp only [if_true] at h1
          cases h1
          have hl : lookupE ((optEntry "lead_id" ((visitLeadId text).map mkS) ++ [] ++
              optEntry "notes" ((visitNotesValue text).map (fun m => mkS (pyStrip m)))) ++
              [("visit_time", mkS p)]) "visit_time" = some (mkS p) := by
            rw [lookupE_append, lookupE_append, lookupE_append, lookupE_optEntry,
              lookupE_optEntry]
            simp only [show ("lead_id" == "visit_time") = false from rfl,
              show ("notes" == "visit_time") = false from rfl, cond_false]
            rfl
          constructor
          · intro c hcc
            exact absurd hcc (by simp)
          · intro _
            exact hl
        · rw [eq_false_of_ne_true hc] at h1
          exact absurd h1 (by simp)
  · rw [if_neg hg] at h1
    exact absurd h1 (by simp)

/-- Witness for C4: in "visit lead abc at 3" the time patterns produce
the phrase "3"; with a collaborator that always fails, visit_time holds
the raw text "3". -/
theorem C4_raw_time_fallback_witness :
    visitAttempt dpNone (textOf "visit lead abc at 3") (loweredOf "visit lead abc at 3") =
      some ⟨"VISIT_SCHEDULE", [("lead_id", "abc"), ("visit_time", "3")]⟩ ∧
    findTimeText (textOf "visit lead abc at 3") = some ['3'] ∧
    lookupE [("lead_id", "abc"), ("visit_time", "3")] "visit_time" = some "3" := by
  have h1 : visitAttempt dpNone (textOf "visit lead abc at 3")
      (loweredOf "visit lead abc at 3") =
      some ⟨"VISIT_SCHEDULE", [("lead_id", "abc"), ("visit_time", "3")]⟩ := rfl
  have h2 : findTimeText (textOf "visit lead abc at 3") = some ['3'] := rfl
  exact ⟨h1, h2,
    (C4_raw_time_fallback dpNone (textOf "visit lead abc at 3")
      (loweredOf "visit lead abc at 3") _ ['3'] h1 h2).2 rfl⟩

/-! ### Lookup lemmas for the built entity maps -/

theorem lookupE_updateEntities_status (text : List Char) :
    lookupE (updateEntities text) "status" = statusValue text := by
  unfold updateEntities
  rw [lookupE_append, lookupE_append, lookupE_optEntry, lookupE_optEntry, lookupE_optEntry]
  simp only [show ("lead_id" == "status") = false from rfl,
    show ("status" == "status") = true from rfl,
    show ("notes" == "status") = false from rfl, cond_false, cond_true]
  cases statusValue text <;> rfl

theorem hasKey_updateEntities_status (text : List Char) :
    hasKey (updateEntities text) "status" = (statusValue text).isSome := by
  unfold updateEntities
  rw [hasKey_append, hasKey_append, hasKey_optEntry, hasKey_optEntry, hasKey_optEntry]
  simp only [show ("lead_id" == "status") = false from rfl,
    show ("status" == "status") = true from rfl,
    show ("notes" == "status") = false from rfl, Bool.and_false, Bool.and_true,
    Bool.false_or, Bool.or_false]

theorem lookupE_updateEntities_lead (text : List Char) :
    lookupE (updateEntities text) "lead_id" =
      (scanFirst matchULeadAt text).map (fun m => mkS (pyStrip m)) := by
  unfold updateEntities
  rw [lookupE_append, lookupE_append, lookupE_optEntry, lookupE_optEntry, lookupE_optEntry]
  simp only [show ("lead_id" == "lead_id") = true from rfl,
    show ("status" == "lead_id") = false from rfl,
    show ("notes" == "lead_id") = false from rfl, cond_false, cond_true]
  cases (scanFirst matchULeadAt text).map (fun m => mkS (pyStrip m)) <;> rfl

theorem hasKey_updateEntities_lead (text : List Char) :
    hasKey (updateEntities text) "lead_id" = (scanFirst matchULeadAt text).isSome := by
  unfold updateEntities
  rw [hasKey_append, hasKey_append, hasKey_optEntry, hasKey_optEntry, hasKey_optEntry]
  simp [show ("lead_id" == "lead_id") = true from rfl,
    show ("status" == "lead_id") = false from rfl,
    show ("notes" == "lead_id") = false from rfl]

theorem lookupE_lce_source (text : List Char) :
    lookupE (leadCreateEntities text) "source" = sourceValue text := by
  unfold leadCreateEntities
  rw [lookupE_append, lookupE_append, lookupE_append, lookupE_optEntry, lookupE_optEntry,
    lookupE_optEntry, lookupE_optEntry]
  simp only [show ("name" == "source") = false from rfl,
    show ("phone" == "source") = false from rfl,
    show ("city" == "source") = false from rfl,
    show ("source" == "source") = true from rfl, cond_false, cond_true]
  cases sourceValue text <;> rfl

theorem lookupE_lce_name (text : List Char) :
    lookupE (leadCreateEntities text) "name" =
      (findName text).map (fun m => mkS (pyStrip m)) := by
  unfold leadCreateEntities
  rw [lookupE_append, lookupE_append, lookupE_append, lookupE_optEntry, lookupE_optEntry,
    lookupE_optEntry, lookupE_optEntry]
  simp only [show ("name" == "name") = true from rfl,
    show ("phone" == "name") = false from rfl,
    show ("city" == "name") = false from rfl,
    show ("source" == "name") = false from rfl, cond_false, cond_true]
  cases (findName text).map (fun m => mkS (pyStrip m)) <;> rfl

theorem lookupE_lce_phone (text : List Char) :
    lookupE (leadCreateEntities text) "phone" =
      (findPhone text).map (fun m => mkS (m.filter Char.isDigit)) := by
  unfold leadCreateEntities
  rw [lookupE_append, lookupE_append, lookupE_append, lookupE_optEntry, lookupE_optEntry,
    lookupE_optEntry, lookupE_optEntry]
  simp only [show ("name" == "phone") = false from rfl,
    show ("phone" == "phone") = true from rfl,
    show ("city" == "phone") = false from rfl,
    show ("source" == "phone") = false from rfl, cond_false, cond_true]
  cases (findPhone text).map (fun m => mkS (m.filter Char.isDigit)) <;> rfl

theorem lookupE_lce_city (text : List Char) :
    lookupE (leadCreateEntities text) "city" =
      (findCity text).map (fun m => mkS (pyStrip m)) := by
  unfold leadCreateEntities
  rw [lookupE_append, lookupE_append, lookupE_append, lookupE_optEntry, lookupE_optEntry,
    lookupE_optEntry, lookupE_optEntry]
  simp only [show ("name" == "city") = false from rfl,
    show ("phone" == "city") = false from rfl,
    show ("city" == "city") = true from rfl,
    show ("source" == "city") = false from rfl, cond_false, cond_true]
  cases (findCity text).map (fun m => mkS (pyStrip m)) <;> rfl

theorem hasKey_lce_name (text : List Char) :
    hasKey (leadCreateEntities text) "name" = (findName text).isSome := by
  unfold leadCreateEntities
  rw [hasKey_append, hasKey_append, hasKey_append, hasKey_optEntry, hasKey_optEntry,
    hasKey_optEntry, hasKey_optEntry]
  simp [show ("name" == "name") = true from rfl, show ("phone" == "name") = false from rfl,
    show ("city" == "name") = false from rfl, show ("source" == "name") = false from rfl]

theorem hasKey_lce_phone (text : List Char) :
    hasKey (leadCreateEntities text) "phone" = (findPhone text).isSome := by
  unfold leadCreateEntities
  rw [hasKey_append, hasKey_append, hasKey_append, hasKey_optEntry, hasKey_optEntry,
    hasKey_optEntry, hasKey_optEntry]
  simp [show ("name" == "phone") = false from rfl, show ("phone" == "phone") = true from rfl,
    show ("city" == "phone") = false from rfl, show ("source" == "phone") = false from rfl]

theorem hasKey_lce_city (text : List Char) :
    hasKey (leadCreateEntities text) "city" = (findCity text).isSome := by
  unfold leadCreateEntities
  rw [hasKey_append, hasKey_append, hasKey_append, hasKey_optEntry, hasKey_optEntry,
    hasKey_optEntry, hasKey_optEntry]
  simp [show ("name" == "city") = false from rfl, show ("phone" == "city") = false from rfl,
    show ("city" == "city") = true from rfl, show ("source" == "city") = false from rfl]

/-- When the LEAD_CREATE trial does not decide the parse, the result
comes from the later trials and cannot carry intent LEAD_CREATE;
similarly for the other intents. -/
theorem parse_intent_lead_create {dp : String → Option String} {t : String}
    (h : (parse_transcript dp t).intent = "LEAD_CREATE") :
    ∃ r, leadCreateAttempt (textOf t) (loweredOf t) = some r ∧ parse_transcript dp t = r := by
  cases h1 : leadCreateAttempt (textOf t) (loweredOf t) with
  | some r => exact ⟨r, rfl, by simp [parse_transcript, h1]⟩
  | none =>
    exfalso
    cases h2 : visitAttempt dp (textOf t) (loweredOf t) with
    | some r =>
      have hp : parse_transcript dp t = r := by simp [parse_transcript, h1, h2]
      rw [hp, (visitAttempt_eq_some h2).1] at h
      simp at h
    | none =>
      cases h3 : updateAttempt (textOf t) (loweredOf t) with
      | some r =>
        have hp : parse_transcript dp t = r := by simp [parse_transcript, h1, h2, h3]
        obtain ⟨hr, -⟩ := updateAttempt_eq_some h3
        rw [hp, hr] at h
        simp at h
      | none =>
        have hp : parse_transcript dp t = ⟨"UNKNOWN", []⟩ := by
          simp [parse_transcript, h1, h2, h3]
        rw [hp] at h
        simp at h

theorem parse_intent_lead_update {dp : String → Option String} {t : String}
    (h : (parse_transcript dp t).intent = "LEAD_UPDATE") :
    updateAttempt (textOf t) (loweredOf t) =
      some ⟨"LEAD_UPDATE", updateEntities (textOf t)⟩ ∧
    parse_transcript dp t = ⟨"LEAD_UPDATE", updateEntities (textOf t)⟩ := by
  cases h1 : leadCreateAttempt (textOf t) (loweredOf t) with
  | some r =>
    exfalso
    have hp : parse_transcript dp t = r := by simp [parse_transcript, h1]
    obtain ⟨hr, -⟩ := leadCreateAttempt_eq_some h1
    rw [hp, hr] at h
    simp at h
  | none =>
    cases h2 : visitAttempt dp (textOf t) (loweredOf t) with
    | some r =>
      exfalso
      have hp : parse_transcript dp t = r := by simp [parse_transcript, h1, h2]
      rw [hp, (visitAttempt_eq_some h2).1] at h
      simp at h
    | none =>
      cases h3 : updateAttempt (textOf t) (loweredOf t) with
      | some r =>
        obtain ⟨hr, -⟩ := updateAttempt_eq_some h3
        subst hr
        exact ⟨rfl, by simp [parse_transcript, h1, h2, h3]⟩
      | none =>
        exfalso
        have hp : parse_transcript dp t = ⟨"UNKNOWN", []⟩ := by
          simp [parse_transcript, h1, h2, h3]
        rw [hp] at h
        simp at h

/-! ### Claim C5 -/

/-- C5: every LEAD_UPDATE result carries a status that is the
normalization (upper-case, spaces to underscores) of the first
case-insensitive occurrence of one of the five literal status tokens,
and that normalized value lies in VALID_STATUSES. -/
theorem C5_status_whitelist (dp : String → Option String) (t : String)
    (h : (parse_transcript dp t).intent = "LEAD_UPDATE") :
    ∃ m, scanFirst matchStatusAt (textOf t) = some m ∧
      lookupE (parse_transcript dp t).entities "status" = some (statusNorm m) ∧
      VALID_STATUSES.contains (statusNorm m) = true := by
  obtain ⟨h3, hp⟩ := parse_intent_lead_update h
  obtain ⟨-, -, -, hs⟩ := updateAttempt_eq_some h3
  rw [hasKey_updateEntities_status] at hs
  obtain ⟨s, hsv⟩ := Option.isSome_iff_exists.mp hs
  cases hm : scanFirst matchStatusAt (textOf t) with
  | none =>
    have h0 : statusValue (textOf t) = none := by
      unfold statusValue; rw [hm]
    rw [h0] at hsv
    exact absurd hsv (by simp)
  | some m =>
    have h0 : statusValue (textOf t) =
        if VALID_STATUSES.contains (statusNorm m) = true then some (statusNorm m)
        else none := by
      unfold statusValue; rw [hm]
    by_cases hk : VALID_STATUSES.contains (statusNorm m) = true
    · refine ⟨m, rfl, ?_, hk⟩
      rw [hp]
      show lookupE (updateEntities (textOf t)) "status" = some (statusNorm m)
      rw [lookupE_updateEntities_status, h0, if_pos hk]
    · rw [h0, if_neg hk] at hsv
      exact absurd hsv (by simp)

/-- Witness for C5: "mark lead a1 status WON" yields LEAD_UPDATE with
status WON, which is in the whitelist. -/
theorem C5_status_whitelist_witness :
    (parse_transcript dpNone "mark lead a1 status WON").intent = "LEAD_UPDATE" ∧
    (∃ m, scanFirst matchStatusAt (textOf "mark lead a1 status WON") = some m ∧
      lookupE (parse_transcript dpNone "mark lead a1 status WON").entities "status" =
        some (statusNorm m) ∧
      VALID_STATUSES.contains (statusNorm m) = true) :=
  ⟨rfl, C5_status_whitelist dpNone "mark lead a1 status WON" rfl⟩

/-! ### Claim C6 -/

/-- C6: in every LEAD_CREATE result the source entity, when present, is
the capitalized captured word whose lowercase form is one of the six
known sources; a captured candidate outside KNOWN_SOURCES is silently
omitted; and whether the LEAD_CREATE trial succeeds depends only on the
gate and on the name/phone/city matches, not on the source. -/
theorem C6_source_whitelist (dp : String → Option String) (t : String)
    (h : (parse_transcript dp t).intent = "LEAD_CREATE") :
    (∀ v, lookupE (parse_transcript dp t).entities "source" = some v →
      ∃ m, findSource (textOf t) = some m ∧ v = mkS (pyCapitalize m) ∧
        KNOWN_SOURCES.contains (mkS ((pyCapitalize m).map Char.toLower)) = true) ∧
    (∀ m, findSource (textOf t) = some m →
      KNOWN_SOURCES.contains (mkS ((pyCapitalize m).map Char.toLower)) = false →
      lookupE (parse_transcript dp t).entities "source" = none) ∧
    ((leadCreateAttempt (textOf t) (loweredOf t)).isSome =
      (leadCreateGate (loweredOf t) && (findName (textOf t)).isSome &&
        (findPhone (textOf t)).isSome && (findCity (textOf t)).isSome)) := by
  obtain ⟨r, h1, hp⟩ := parse_intent_lead_create h
  obtain ⟨hr, -⟩ := leadCreateAttempt_eq_some h1
  subst hr
  rw [hp]
  refine ⟨?_, ?_, ?_⟩
  · intro v hv
    rw [show (⟨"LEAD_CREATE", leadCreateEntities (textOf t)⟩ : ParseResult).entities =
      leadCreateEntities (textOf t) from rfl, lookupE_lce_source] at hv
    cases hm : findSource (textOf t) with
    | none =>
      have h0 : sourceValue (textOf t) = none := by
        unfold sourceValue; rw [hm]
      rw [h0] at hv
      exact absurd hv (by simp)
    | some m =>
      have h0 : sourceValue (textOf t) =
          if KNOWN_SOURCES.contains (mkS ((pyCapitalize m).map Char.toLower)) = true then
            some (mkS (pyCapitalize m))
          else none := by
        unfold sourceValue; rw [hm]
      by_cases hk : KNOWN_SOURCES.contains (mkS ((pyCapitalize m).map Char.toLower)) = true
      · rw [h0, if_pos hk] at hv
        exact ⟨m, rfl, (Option.some_inj.mp hv).symm, hk⟩
      · rw [h0, if_neg hk] at hv
        exact absurd hv (by simp)
  · intro m hm hk
    rw [show (⟨"LEAD_CREATE", leadCreateEntities (textOf t)⟩ : ParseResult).entities =
      leadCreateEntities (textOf t) from rfl, lookupE_lce_source]
    have h0 : sourceValue (textOf t) =
        if KNOWN_SOURCES.contains (mkS ((pyCapitalize m).map Char.toLower)) = true then
          some (mkS (pyCapitalize m))
        else none := by
      unfold sourceValue; rw [hm]
    rw [h0, if_neg (by rw [hk]; simp)]
  · by_cases hg : leadCreateGate (loweredOf t) = true
    · unfold leadCreateAttempt
      rw [if_pos hg, hg]
      by_cases hk : (hasKey (leadCreateEntities (textOf t)) "name" &&
          hasKey (leadCreateEntities (textOf t)) "phone" &&
          hasKey (leadCreateEntities (textOf t)) "city") = true
      · rw [if_pos hk]
        rw [hasKey_lce_name, hasKey_lce_phone, hasKey_lce_city] at hk
        simp only [Bool.and_eq_true] at hk
        rw [hk.1.1, hk.1.2, hk.2]
        rfl
      · rw [if_neg hk]
        rw [hasKey_lce_name, hasKey_lce_phone, hasKey_lce_city] at hk
        have := eq_false_of_ne_true hk
        simp only [Bool.and_eq_false_iff] at this
        rcases this with (hf | hf) | hf <;> rw [hf] <;> simp
    · unfold leadCreateAttempt
      rw [if_neg hg, eq_false_of_ne_true hg]
      simp

/-- Witness for C6: in "add lead John Smith from Delhi phone 98765 43210
via telegram" a source keyword is present but "telegram" is not a known
source, so the source entity is omitted while the intent still succeeds. -/
theorem C6_source_whitelist_witness :
    (parse_transcript dpNone
      "add lead John Smith from Delhi phone 98765 43210 via telegram").intent =
      "LEAD_CREATE" ∧
    findSource (textOf "add lead John Smith from Delhi phone 98765 43210 via telegram") =
      some "telegram".data ∧
    lookupE (parse_transcript dpNone
      "add lead John Smith from Delhi phone 98765 43210 via telegram").entities
      "source" = none := by
  have h : (parse_transcript dpNone
      "add lead John Smith from Delhi phone 98765 43210 via telegram").intent =
      "LEAD_CREATE" := rfl
  exact ⟨h, rfl,
    (C6_source_whitelist dpNone
        "add lead John Smith from Delhi phone 98765 43210 via telegram" h).2.1
      "telegram".data rfl rfl⟩

/-! ### Structure lemmas for the matchers (used for non-emptiness) -/

theorem scanFirst_some {α : Type} {f : List Char → Option α} {s : List Char} {x : α}
    (h : scanFirst f s = some x) : ∃ w, f w = some x := by
  induction s with
  | nil => exact ⟨[], h⟩
  | cons c cs ih =>
    unfold scanFirst at h
    split at h
    · rename_i y hf
      exact ⟨c :: cs, hf.trans h⟩
    · exact ih h

theorem mSeq_eq_some {m1 m2 : List Char → Option (List Char × List Char)}
    {s g r : List Char} (h : mSeq m1 m2 s = some (g, r)) :
    ∃ a r1 b, m1 s = some (a, r1) ∧ m2 r1 = some (b, r) ∧ g = a ++ b := by
  unfold mSeq at h
  split at h
  · rename_i a r1 h1
    split at h
    · rename_i b r2 h2
      have hpair := Option.some_inj.mp h
      have hg : g = a ++ b := (congrArg Prod.fst hpair).symm
      have hr : r2 = r := congrArg Prod.snd hpair
      exact ⟨a, r1, b, h1, hr ▸ h2, hg⟩
    · exact absurd h (by simp)
  · exact absurd h (by simp)

theorem mOr_eq_some {m1 m2 : List Char → Option (List Char × List Char)}
    {s : List Char} {x : List Char × List Char} (h : mOr m1 m2 s = some x) :
    m1 s = some x ∨ m2 s = some x := by
  unfold mOr at h
  split at h
  · rename_i y h1
    exact Or.inl (h1.trans h)
  · exact Or.inr h

theorem mCount_eq_some {f : Char → Bool} :
    ∀ {n : Nat} {s t r : List Char}, mCount f n s = some (t, r) →
      t.length = n ∧ ∀ x ∈ t, f x = true := by
  intro n
  induction n with
  | zero =>
    intro s t r h
    have h0 : mCount f 0 s = some ([], s) := rfl
    rw [h0] at h
    have hpair := Option.some_inj.mp h
    have ht : t = [] := (congrArg Prod.fst hpair).symm
    subst ht
    exact ⟨rfl, by intro x hx; exact absurd hx (by simp)⟩
  | succ n ih =>
    intro s t r h
    cases s with
    | nil =>
      have h0 : mCount f (n + 1) ([] : List Char) = none := rfl
      rw [h0] at h
      exact absurd h (by simp)
    | cons c cs =>
      by_cases hf : f c = true
      · cases hrec : mCount f n cs with
        | none =>
          have h0 : mCount f (n + 1) (c :: cs) = none := by
            unfold mCount; rw [if_pos hf, hrec]
          rw [h0] at h
          exact absurd h (by simp)
        | some tr =>
          obtain ⟨t', r'⟩ := tr
          have h0 : mCount f (n + 1) (c :: cs) = some (c :: t', r') := by
            unfold mCount; rw [if_pos hf, hrec]
          rw [h0] at h
          have hpair := Option.some_inj.mp h
          have ht : t = c :: t' := (congrArg Prod.fst hpair).symm
          subst ht
          obtain ⟨hlen, hall⟩ := ih hrec
          refine ⟨by simp [hlen], ?_⟩
          intro x hx
          rcases List.mem_cons.mp hx with hx | hx
          · rw [hx]; exact hf
          · exact hall x hx
      · have h0 : mCount f (n + 1) (c :: cs) = none := by
          unfold mCount; rw [if_neg hf]
        rw [h0] at h
        exact absurd h (by simp)

theorem mMunch1_eq_some {f : Char → Bool} {s t r : List Char}
    (h : mMunch1 f s = some (t, r)) :
    t = s.takeWhile f ∧ t ≠ [] := by
  unfold mMunch1 at h
  by_cases he : (s.takeWhile f).isEmpty = true
  · rw [if_pos he] at h
    exact absurd h (by simp)
  · rw [if_neg he] at h
    have hpair := Option.some_inj.mp h
    have ht : t = s.takeWhile f := (congrArg Prod.fst hpair).symm
    refine ⟨ht, ?_⟩
    rw [ht]
    intro hnil
    rw [hnil] at he
    exact he rfl

theorem mLit_eq_some {pat s c r : List Char} (h : mLit pat s = some (c, r)) : c = pat := by
  unfold mLit at h
  by_cases hp : pat.isPrefixOf s = true
  · rw [if_pos hp] at h
    exact ((congrArg Prod.fst (Option.some_inj.mp h)).symm)
  · rw [if_neg hp] at h
    exact absurd h (by simp)

/-- An upper-case ASCII letter is not Python whitespace. -/
theorem not_ws_of_isUpper {c : Char} (h : c.isUpper = true) : isPyWS c = false := by
  cases hw : isPyWS c
  · rfl
  · exfalso
    simp only [isPyWS, Bool.or_eq_true, decide_eq_true_eq] at hw
    rcases hw with ((((rfl | rfl) | rfl) | rfl) | rfl) | rfl <;> exact absurd h (by decide)

/-- An ASCII letter is not Python whitespace. -/
theorem not_ws_of_isAlpha {c : Char} (h : c.isAlpha = true) : isPyWS c = false := by
  cases hw : isPyWS c
  · rfl
  · exfalso
    simp only [isPyWS, Bool.or_eq_true, decide_eq_true_eq] at hw
    rcases hw with ((((rfl | rfl) | rfl) | rfl) | rfl) | rfl <;> exact absurd h (by decide)

/-- Stripping a list whose head is not whitespace yields a non-empty list. -/
theorem pyStrip_ne_nil {c : Char} {cs : List Char} (hc : isPyWS c = false) :
    pyStrip (c :: cs) ≠ [] := by
  intro hnil
  unfold pyStrip at hnil
  have h1 : (c :: cs).dropWhile isPyWS = c :: cs := by
    rw [List.dropWhile_cons, hc]
    simp
  rw [h1] at hnil
  have h2 : ((c :: cs).reverse.dropWhile isPyWS) = [] := by
    cases hrev : (c :: cs).reverse.dropWhile isPyWS with
    | nil => rfl
    | cons d ds => rw [hrev] at hnil; simp at hnil
  have h3 := List.dropWhile_eq_nil_iff.mp h2
  have hc' : c ∈ (c :: cs).reverse := by simp
  exact absurd (h3 c hc') (by rw [hc]; simp)

theorem mkS_ne_empty {l : List Char} (h : l ≠ []) : mkS l ≠ "" := by
  intro he
  apply h
  have hd : (mkS l).data = ("" : String).data := congrArg String.data he
  simpa [mkS] using hd

/-- The captured name group starts with a capital letter. -/
theorem capPair_head {s g r : List Char} (h : capPair s = some (g, r)) :
    ∃ c cs, g = c :: cs ∧ c.isUpper = true := by
  obtain ⟨a, r1, b, h1, h2, hg⟩ := mSeq_eq_some h
  obtain ⟨hlen, hall⟩ := mCount_eq_some h1
  cases a with
  | nil => simp at hlen
  | cons c cs' =>
    cases cs' with
    | nil => exact ⟨c, b, by rw [hg]; rfl, hall c (by simp)⟩
    | cons d ds => simp at hlen

theorem matchNameAt_head {s m : List Char} (h : matchNameAt s = some m) :
    ∃ c cs, m = c :: cs ∧ c.isUpper = true := by
  unfold matchNameAt at h
  split at h
  · rename_i g hx
    split at hx
    · rename_i a r1 hseq
      obtain ⟨⟨g', r'⟩, hcp, hfst⟩ := Option.map_eq_some'.mp hx
      obtain ⟨c, cs, hgc, hcu⟩ := capPair_head hcp
      refine ⟨c, cs, ?_, hcu⟩
      rw [← Option.some_inj.mp h, ← hfst, hgc]
    · exact absurd hx (by simp)
  · obtain ⟨⟨g', r'⟩, hcp, hfst⟩ := Option.map_eq_some'.mp h
    obtain ⟨c, cs, hgc, hcu⟩ := capPair_head hcp
    exact ⟨c, cs, by rw [← hfst, hgc], hcu⟩

theorem findName_head {text m : List Char} (h : findName text = some m) :
    ∃ c cs, m = c :: cs ∧ c.isUpper = true := by
  unfold findName at h
  obtain ⟨w, hw⟩ := scanFirst_some h
  exact matchNameAt_head hw

/-- The captured city group starts with an ASCII letter. -/
theorem matchCityAt_head {s m : List Char} (h : matchCityAt s = some m) :
    ∃ c cs, m = c :: cs ∧ c.isAlpha = true := by
  have key : ∀ r1 g', alphaWord r1 = some g' → ∃ c cs, g'.1 = c :: cs ∧ c.isAlpha = true := by
    intro r1 g' hal
    obtain ⟨gg, rr⟩ := g'
    obtain ⟨ht, hne⟩ := mMunch1_eq_some hal
    cases gg with
    | nil => exact absurd rfl hne
    | cons c cs =>
      refine ⟨c, cs, rfl, ?_⟩
      have hc : c ∈ r1.takeWhile Char.isAlpha := by
        rw [← ht]; simp
      exact List.mem_takeWhile_imp hc
  unfold matchCityAt at h
  split at h
  · rename_i g hx
    split at hx
    · rename_i a r1 hseq
      obtain ⟨⟨g', r'⟩, hal, hfst⟩ := Option.map_eq_some'.mp hx
      obtain ⟨c, cs, hgc, hca⟩ := key r1 (g', r') hal
      refine ⟨c, cs, ?_, hca⟩
      rw [← Option.some_inj.mp h, ← hfst]
      exact hgc
    · exact absurd hx (by simp)
  · split at h
    · rename_i a r1 hseq
      obtain ⟨⟨g', r'⟩, hal, hfst⟩ := Option.map_eq_some'.mp h
      obtain ⟨c, cs, hgc, hca⟩ := key r1 (g', r') hal
      exact ⟨c, cs, by rw [← hfst]; exact hgc, hca⟩
    · exact absurd h (by simp)

theorem findCity_head {text m : List Char} (h : findCity text = some m) :
    ∃ c cs, m = c :: cs ∧ c.isAlpha = true := by
  unfold findCity at h
  obtain ⟨w, hw⟩ := scanFirst_some h
  exact matchCityAt_head hw

/-- Every successful phone match contains a digit. -/
theorem phoneTail_digit {s g r : List Char} (h : phoneTail s = some (g, r)) :
    ∃ x ∈ g, Char.isDigit x = true := by
  unfold phoneTail d5 at h
  obtain ⟨a, r1, b, h1, h2, hg⟩ := mSeq_eq_some h
  obtain ⟨hlen, hall⟩ := mCount_eq_some h1
  cases a with
  | nil => simp at hlen
  | cons c cs =>
    refine ⟨c, ?_, hall c (by simp)⟩
    rw [hg]
    simp

theorem matchPhoneAt_digit {s g : List Char} (h : matchPhoneAt s = some g) :
    ∃ x ∈ g, Char.isDigit x = true := by
  unfold matchPhoneAt at h
  obtain ⟨⟨g', r'⟩, hor, hfst⟩ := Option.map_eq_some'.mp h
  have hgg : g' = g := hfst
  subst hgg
  rcases mOr_eq_some hor with hcc | ht
  · unfold phoneWithCC at hcc
    obtain ⟨a, r1, b, h1, h2, hg⟩ := mSeq_eq_some hcc
    rcases mOr_eq_some h2 with hsep | hpt
    · obtain ⟨a2, r2, b2, h3, h4, hb⟩ := mSeq_eq_some hsep
      obtain ⟨x, hx, hdx⟩ := phoneTail_digit h4
      refine ⟨x, ?_, hdx⟩
      rw [hg, hb]
      exact List.mem_append_right a (List.mem_append_right a2 hx)
    · obtain ⟨x, hx, hdx⟩ := phoneTail_digit hpt
      refine ⟨x, ?_, hdx⟩
      rw [hg]
      exact List.mem_append_right a hx
  · exact phoneTail_digit ht

theorem findPhone_digit {text m : List Char} (h : findPhone text = some m) :
    ∃ x ∈ m, Char.isDigit x = true := by
  unfold findPhone at h
  obtain ⟨w, hw⟩ := scanFirst_some h
  exact matchPhoneAt_digit hw

/-! ### Claim C7 -/

/-- C7: every LEAD_CREATE result carries non-empty name, phone and city
entities, and the phone value is the digit-only normalization (all
non-digits stripped) of the first match of the phone pattern. -/
theorem C7_lead_create_fields (dp : String → Option String) (t : String)
    (h : (parse_transcript dp t).intent = "LEAD_CREATE") :
    ∃ n p c, lookupE (parse_transcript dp t).entities "name" = some n ∧
      lookupE (parse_transcript dp t).entities "phone" = some p ∧
      lookupE (parse_transcript dp t).entities "city" = some c ∧
      n ≠ "" ∧ p ≠ "" ∧ c ≠ "" ∧ p.data.all Char.isDigit = true ∧
      ∃ m, findPhone (textOf t) = some m ∧ p = mkS (m.filter Char.isDigit) := by
  obtain ⟨r, h1, hp⟩ := parse_intent_lead_create h
  obtain ⟨hr, -, hn, hph, hci⟩ := leadCreateAttempt_eq_some h1
  subst hr
  rw [hp]
  rw [hasKey_lce_name] at hn
  rw [hasKey_lce_phone] at hph
  rw [hasKey_lce_city] at hci
  obtain ⟨nm, hnm⟩ := Option.isSome_iff_exists.mp hn
  obtain ⟨pm, hpm⟩ := Option.isSome_iff_exists.mp hph
  obtain ⟨cm, hcm⟩ := Option.isSome_iff_exists.mp hci
  refine ⟨mkS (pyStrip nm), mkS (pm.filter Char.isDigit), mkS (pyStrip cm),
    ?_, ?_, ?_, ?_, ?_, ?_, ?_, pm, hpm, rfl⟩
  · show lookupE (leadCreateEntities (textOf t)) "name" = some (mkS (pyStrip nm))
    rw [lookupE_lce_name, hnm]
    rfl
  · show lookupE (leadCreateEntities (textOf t)) "phone" =
      some (mkS (pm.filter Char.isDigit))
    rw [lookupE_lce_phone, hpm]
    rfl
  · show lookupE (leadCreateEntities (textOf t)) "city" = some (mkS (pyStrip cm))
    rw [lookupE_lce_city, hcm]
    rfl
  · obtain ⟨c, cs, hgc, hcu⟩ := findName_head hnm
    apply mkS_ne_empty
    rw [hgc]
    exact pyStrip_ne_nil (not_ws_of_isUpper hcu)
  · obtain ⟨x, hx, hdx⟩ := findPhone_digit hpm
    apply mkS_ne_empty
    intro hfe
    have := List.filter_eq_nil_iff.mp hfe x hx
    rw [hdx] at this
    exact this rfl
  · obtain ⟨c, cs, hgc, hca⟩ := findCity_head hcm
    apply mkS_ne_empty
    rw [hgc]
    exact pyStrip_ne_nil (not_ws_of_isAlpha hca)
  · show (pm.filter Char.isDigit).all Char.isDigit = true
    refine List.all_eq_true.mpr ?_
    intro x hx
    exact (List.mem_filter.mp hx).2

/-- Witness for C7: "create lead Amit Kumar from Pune phone 9876543210"
succeeds with non-empty name, phone and city, the phone a pure digit
string. -/
theorem C7_lead_create_fields_witness :
    (parse_transcript dpNone "create lead Amit Kumar from Pune phone 9876543210").intent =
      "LEAD_CREATE" ∧
    (∃ n p c, lookupE (parse_transcript dpNone
        "create lead Amit Kumar from Pune phone 9876543210").entities "name" = some n ∧
      lookupE (parse_transcript dpNone
        "create lead Amit Kumar from Pune phone 9876543210").entities "phone" = some p ∧
      lookupE (parse_transcript dpNone
        "create lead Amit Kumar from Pune phone 9876543210").entities "city" = some c ∧
      n ≠ "" ∧ p ≠ "" ∧ c ≠ "" ∧ p.data.all Char.isDigit = true ∧
      ∃ m, findPhone (textOf "create lead Amit Kumar from Pune phone 9876543210") =
        some m ∧ p = mkS (m.filter Char.isDigit)) :=
  ⟨rfl, C7_lead_create_fields dpNone "create lead Amit Kumar from Pune phone 9876543210" rfl⟩

/-! ### Claim C8 -/

/-- Counterexample to C8 as stated: in "update lead zz93 status WON" the
word "lead" is followed by the alphanumeric token "zz93" and a valid
status is present, yet the LEAD_UPDATE pattern `lead\s+([0-9a-fA-F-]+)`
accepts only hex digits and hyphens, so no lead_id is extracted and the
parse falls through to UNKNOWN instead of succeeding with that token. -/
theorem C8_counterexample :
    updateGate (loweredOf "update lead zz93 status WON") = true ∧
    scanFirst matchStatusAt (textOf "update lead zz93 status WON") = some "WON".data ∧
    VALID_STATUSES.contains (statusNorm "WON".data) = true ∧
    scanFirst matchULeadAt (textOf "update lead zz93 status WON") = none ∧
    updateAttempt (textOf "update lead zz93 status WON")
      (loweredOf "update lead zz93 status WON") = none ∧
    parse_transcript dpNone "update lead zz93 status WON" = ⟨"UNKNOWN", []⟩ :=
  ⟨rfl, rfl, rfl, rfl, rfl, rfl⟩

/-- C8 amended: in the LEAD_UPDATE extractor, lead_id is the token of
HEX digits and hyphens (`[0-9a-fA-F-]+`, not general alphanumerics)
following the literal "lead": for every transcript passing the
LEAD_UPDATE gate in which that pattern matches (with a valid status
also present), the matched token is extracted as lead_id and the trial
succeeds with intent LEAD_UPDATE. -/
theorem C8_lead_update_extraction (t : String) (m st : List Char)
    (hg : updateGate (loweredOf t) = true)
    (hm : scanFirst matchULeadAt (textOf t) = some m)
    (hst : scanFirst matchStatusAt (textOf t) = some st)
    (hv : VALID_STATUSES.contains (statusNorm st) = true) :
    ∃ r, updateAttempt (textOf t) (loweredOf t) = some r ∧
      r.intent = "LEAD_UPDATE" ∧
      lookupE r.entities "lead_id" = some (mkS (pyStrip m)) := by
  have hsv : statusValue (textOf t) = some (statusNorm st) := by
    unfold statusValue
    rw [hst]
    show (if VALID_STATUSES.contains (statusNorm st) = true then some (statusNorm st)
      else none) = some (statusNorm st)
    rw [if_pos hv]
  have hl : hasKey (updateEntities (textOf t)) "lead_id" = true := by
    rw [hasKey_updateEntities_lead, hm]
    rfl
  have hs : hasKey (updateEntities (textOf t)) "status" = true := by
    rw [hasKey_updateEntities_status, hsv]
    rfl
  refine ⟨⟨"LEAD_UPDATE", updateEntities (textOf t)⟩, ?_, rfl, ?_⟩
  · unfold updateAttempt
    rw [if_pos hg]
    show (if (hasKey (updateEntities (textOf t)) "lead_id" &&
        hasKey (updateEntities (textOf t)) "status") = true then
      some (⟨"LEAD_UPDATE", updateEntities (textOf t)⟩ : ParseResult) else none) =
      some ⟨"LEAD_UPDATE", updateEntities (textOf t)⟩
    rw [hl, hs]
    rfl
  · show lookupE (updateEntities (textOf t)) "lead_id" = some (mkS (pyStrip m))
    rw [lookupE_updateEntities_lead, hm]
    rfl

/-- Witness for the amended C8: "update lead 9a-3f status LOST". -/
theorem C8_lead_update_extraction_witness :
    updateGate (loweredOf "update lead 9a-3f status LOST") = true ∧
    scanFirst matchULeadAt (textOf "update lead 9a-3f status LOST") = some "9a-3f".data ∧
    scanFirst matchStatusAt (textOf "update lead 9a-3f status LOST") = some "LOST".data ∧
    VALID_STATUSES.contains (statusNorm "LOST".data) = true ∧
    (∃ r, updateAttempt (textOf "update lead 9a-3f status LOST")
        (loweredOf "update lead 9a-3f status LOST") = some r ∧
      r.intent = "LEAD_UPDATE" ∧
      lookupE r.entities "lead_id" = some (mkS (pyStrip "9a-3f".data))) :=
  ⟨rfl, rfl, rfl, rfl,
    C8_lead_update_extraction "update lead 9a-3f status LOST" "9a-3f".data "LOST".data
      rfl rfl rfl rfl⟩

/-! ### Claim C9 -/

/-- C9: `parse_transcript` is a pure function of its transcript and of
the date-parsing collaborator's answer: it keeps no hidden state, and it
consults the collaborator only on the single computed time phrase, so
two runs on the same transcript whose collaborator answers the same
there give equal outputs; a run against literally the same collaborator
is definitionally equal to itself (second conjunct). -/
theorem C9_deterministic (dp dp' : String → Option String) (t : String)
    (h : ∀ p, findTimeText (textOf t) = some p → dp (mkS p) = dp' (mkS p)) :
    parse_transcript dp t = parse_transcript dp' t ∧
    parse_transcript dp t = parse_transcript dp t := by
  refine ⟨?_, rfl⟩
  have hv : visitAttempt dp (textOf t) (loweredOf t) =
      visitAttempt dp' (textOf t) (loweredOf t) := by
    simp only [visitAttempt]
    rw [visitTimeEntry_congr dp dp' (findTimeText (textOf t)) h]
  unfold parse_transcript
  rw [hv]

/-- Witness for C9: the always-failing collaborator agrees with itself,
so the two runs coincide. -/
theorem C9_deterministic_witness :
    parse_transcript dpNone "visit lead abcd tomorrow 5 PM" =
      parse_transcript dpNone "visit lead abcd tomorrow 5 PM" :=
  (C9_deterministic dpNone dpNone "visit lead abcd tomorrow 5 PM"
    (fun _ _ => rfl)).1

/-! ### Claim C10 -/

/-- A successful case-sensitive LEAD_UPDATE lead-id search implies the
lowercase word "lead" occurs in the text. -/
theorem scanULead_contains {text m : List Char}
    (h : scanFirst matchULeadAt text = some m) :
    containsSub "lead".data text = true := by
  induction text with
  | nil =>
    have h0 : scanFirst matchULeadAt ([] : List Char) = none := rfl
    rw [h0] at h
    exact absurd h (by simp)
  | cons c cs ih =>
    unfold scanFirst at h
    split at h
    · rename_i y hf
      have hpre : ("lead".data).isPrefixOf (c :: cs) = true := by
        unfold matchULeadAt at hf
        split at hf
        · rename_i a r1 hseq
          obtain ⟨a', r1', b', hlit, hmw, hgx⟩ := mSeq_eq_some hseq
          unfold mLit at hlit
          by_cases hp : ("lead".data).isPrefixOf (c :: cs) = true
          · exact hp
          · rw [if_neg hp] at hlit
            exact absurd hlit (by simp)
        · exact absurd hf (by simp)
      unfold containsSub
      rw [hpre]
      rfl
    · have := ih h
      unfold containsSub
      rw [this]
      simp

/-- C10 (implicit): the LEAD_UPDATE extractor matches the literal
"lead" case-sensitively against the original-case text (no IGNORECASE
on src/nlu.py line 159), unlike the VISIT_SCHEDULE lead-id search, which
is case-insensitive (last two conjuncts exhibit the asymmetry on the
text "visit Lead abc-123"). Consequently every transcript that passes
only the LEAD_UPDATE gate and contains no lowercase occurrence of
"lead" (e.g. only "Lead") yields no lead_id and parses to UNKNOWN. -/
theorem C10_update_lead_case_sensitive (dp : String → Option String) (t : String)
    (h1 : leadCreateGate (loweredOf t) = false)
    (h2 : visitGate (loweredOf t) = false)
    (h3 : updateGate (loweredOf t) = true)
    (h4 : containsSub "lead".data (textOf t) = false) :
    parse_transcript dp t = ⟨"UNKNOWN", []⟩ ∧
    visitLeadId ("visit Lead abc-123".data) = some "abc-123".data ∧
    scanFirst matchULeadAt ("visit Lead abc-123".data) = none := by
  refine ⟨?_, rfl, rfl⟩
  have hsc : scanFirst matchULeadAt (textOf t) = none := by
    cases hsc : scanFirst matchULeadAt (textOf t) with
    | none => rfl
    | some m => rw [scanULead_contains hsc] at h4; exact absurd h4 (by simp)
  have hua : updateAttempt (textOf t) (loweredOf t) = none := by
    unfold updateAttempt
    rw [if_pos h3]
    have hl : hasKey (updateEntities (textOf t)) "lead_id" = false := by
      rw [hasKey_updateEntities_lead, hsc]
      rfl
    show (if (hasKey (updateEntities (textOf t)) "lead_id" &&
        hasKey (updateEntities (textOf t)) "status") = true then
      some (⟨"LEAD_UPDATE", updateEntities (textOf t)⟩ : ParseResult) else none) = none
    rw [hl]
    rfl
  have ha1 : leadCreateAttempt (textOf t) (loweredOf t) = none := by
    unfold leadCreateAttempt
    rw [h1]
    rfl
  have ha2 : visitAttempt dp (textOf t) (loweredOf t) = none := by
    unfold visitAttempt
    rw [h2]
    rfl
  simp [parse_transcript, ha1, ha2, hua]

/-- Witness for C10: "Mark Lead abc-123 status WON" passes only the
LEAD_UPDATE gate, "lead" occurs only capitalized, and the parse is
UNKNOWN. -/
theorem C10_update_lead_case_sensitive_witness :
    leadCreateGate (loweredOf "Mark Lead abc-123 status WON") = false ∧
    visitGate (loweredOf "Mark Lead abc-123 status WON") = false ∧
    updateGate (loweredOf "Mark Lead abc-123 status WON") = true ∧
    containsSub "lead".data (textOf "Mark Lead abc-123 status WON") = false ∧
    parse_transcript dpNone "Mark Lead abc-123 status WON" = ⟨"UNKNOWN", []⟩ :=
  ⟨rfl, rfl, rfl, rfl,
    (C10_update_lead_case_sensitive dpNone "Mark Lead abc-123 status WON"
      rfl rfl rfl rfl).1⟩

end NLU
